import Mathlib

/- Verification development for the graph-state core of abc-shadow
   (src/abc_shadow/graph/graph_wrapper.py).

   The GraphWrapper class wraps a networkx graph: the observed graph is
   transformed once, at construction, into the line graph of the complete
   graph over its node set, with a per-node integer attribute named type
   (1 = active edge of the observed graph, 0 = inactive / complement edge).
   We embed the wrapper state as the attribute dictionary of that line
   graph: an association list from line-graph node (a canonicalized,
   sorted pair of original-graph node identifiers, as networkx line_graph
   labels line-graph nodes with sorted 2-tuples) to its integer type.

   In both construction paths (default complete graph, or a supplied
   graph unioned with its complement) the graph fed to nx.line_graph is
   the complete graph on the node set, so the line-graph node set is the
   set of all canonical node pairs and two line-graph nodes are adjacent
   exactly when the pairs are distinct and share an endpoint.  networkx
   stores that adjacency at construction and no wrapper method ever
   mutates it, and no wrapper method ever adds or removes a line-graph
   node, so the adjacency is a function of the (never-changing) key set
   of the attribute dictionary; neighborsOf below computes it from that
   key set. -/

namespace AbcShadow

/-- The Python exception kinds raised by the embedded code: TypeError
(raised by set_edge_type on a non-coercible value and by the isinstance
rejection in the constructor, and by the collection division inside
get_bridge_count) and KeyError (raised by indexing the node-attribute
dictionary with an unknown edge identifier). -/
inductive PyErr where
  | typeError
  | keyError
deriving DecidableEq

/-- A Python value handed to the mutator set_particle / set_edge_type:
an integer, or a string (a stand-in for the non-integer values the
dynamic call site may pass). -/
inductive PyVal where
  | vint (n : ℤ)
  | vstr (s : String)
deriving DecidableEq

/-- Python int(v): an int passes through unchanged, a string is parsed
as a decimal integer (ValueError, i.e. none, when it does not parse). -/
def pyIntCoerce : PyVal → Option ℤ
  | .vint n => some n
  | .vstr s => s.toInt?

/-- All canonical (sorted, first < second) pairs over a node list: the
edge set of the complete graph on those nodes.  This is the node set of
the line graph the wrapper builds, since nx.line_graph labels the nodes
of the line graph of an undirected graph with sorted 2-tuples, and the
graph being transformed is complete in both construction paths. -/
def completeEdges (ns : List ℕ) : List (ℕ × ℕ) :=
  (ns.flatMap (fun a => ns.map (fun b => (a, b)))).filter (fun p => decide (p.1 < p.2))

/-- The networkx graph handed to the constructor: the kind flags tested
by the isinstance checks (DiGraph / MultiGraph), and, for a plain
undirected simple graph, its node list and its edge list held as
canonical sorted pairs (networkx stores an undirected edge as one
unordered pair; the wrapper additionally canonicalizes composite keys
with tuple(sorted(key))). -/
structure InGraph where
  directed : Bool
  multi : Bool
  nodes : List ℕ
  edges : List (ℕ × ℕ)
deriving DecidableEq

/-- The wrapper state: the line-graph node attribute dictionary, an
association list from line-graph node (canonical edge pair of the
original graph) to the integer value of its type attribute. -/
structure GraphWrapper where
  typ : List ((ℕ × ℕ) × ℤ)
deriving DecidableEq

/-- DEFAULT_DIM = 10 in graph_wrapper.py. -/
def DEFAULT_DIM : ℕ := 10

/-- nx.complement(graph).edges(): the canonical pairs over the input
graph node set that are not edges of the input graph. -/
def complementEdges (gr : InGraph) : List (ℕ × ℕ) :=
  (completeEdges gr.nodes).filter (fun p => decide (p ∉ gr.edges))

/-- GraphWrapper.__init__ with a (natural-number) dim.  With gr = none
the wrapper holds the line graph of nx.complete_graph dim with every
node typed 0 (nx.set_node_attributes(self._graph, 0, 'type')); this
branch contains no raise statement and raises for no dim (for dim 0 or
1 the complete graph has no edges and the line graph is empty).  With a
supplied graph, a DiGraph or MultiGraph input raises TypeError; else
the graph edges are typed 1 (nx.set_edge_attributes(graph, 1, 'type')),
the complement edges are appended typed 0 (graph.add_edges_from), and
the union being the complete graph, the line-graph nodes are exactly
the canonical pairs, each carrying its computed type. -/
def graphWrapperInit (dim : ℕ) (gr : Option InGraph) : Except PyErr GraphWrapper :=
  match gr with
  | none =>
      .ok ⟨(completeEdges (List.range dim)).map (fun e => (e, (0 : ℤ)))⟩
  | some g =>
      if g.directed || g.multi then
        .error .typeError
      else
        .ok ⟨g.edges.map (fun e => (e, (1 : ℤ))) ++
             (complementEdges g).map (fun e => (e, (0 : ℤ)))⟩

/-- GraphWrapper.get_elements: the line-graph nodes, i.e. the keys of
the attribute dictionary. -/
def get_elements (w : GraphWrapper) : List (ℕ × ℕ) :=
  w.typ.map Prod.fst

/-- GraphWrapper.get_edge_type: self._graph.nodes[edge_id]['type'];
none models the KeyError raised on an unknown edge identifier. -/
def get_edge_type (w : GraphWrapper) (e : ℕ × ℕ) : Option ℤ :=
  (w.typ.find? (fun q => decide (q.1 = e))).map Prod.snd

/-- GraphWrapper.get_particle: a direct wrapper of get_edge_type. -/
def get_particle (w : GraphWrapper) (e : ℕ × ℕ) : Option ℤ :=
  get_edge_type w e

/-- GraphWrapper.is_active_edge: get_edge_type(edge_id) == 1. -/
def is_active_edge (w : GraphWrapper) (e : ℕ × ℕ) : Bool :=
  decide (get_edge_type w e = some 1)

/-- GraphWrapper.get_active_edges: the elements that are active. -/
def get_active_edges (w : GraphWrapper) : List (ℕ × ℕ) :=
  (get_elements w).filter (fun e => is_active_edge w e)

/-- The inactive edge identifiers in the sense of the specification:
the elements whose current type is 0 (after construction every element
is typed 0 or 1, so these are exactly the non-active elements). -/
def inactiveEdges (w : GraphWrapper) : List (ℕ × ℕ) :=
  (get_elements w).filter (fun e => decide (get_edge_type w e = some 0))

/-- Two canonical pairs share an endpoint of the original graph. -/
def sharesEndpoint (e f : ℕ × ℕ) : Bool :=
  decide (e.1 = f.1) || decide (e.1 = f.2) ||
  decide (e.2 = f.1) || decide (e.2 = f.2)

/-- self._graph.neighbors(edge): the line-graph adjacency of one node.
The underlying graph is the line graph of the complete graph on the
original node set, where two line-graph nodes are adjacent exactly when
they are distinct pairs sharing an endpoint; that adjacency is fixed at
construction and no method mutates it or the node set, so it is
recovered here from the key set of the attribute dictionary. -/
def neighborsOf (w : GraphWrapper) (e : ℕ × ℕ) : List (ℕ × ℕ) :=
  (get_elements w).filter (fun f => decide (f ≠ e) && sharesEndpoint e f)

/-- GraphWrapper.get_edge_neighbourhood: the neighbors of the given
line-graph node filtered by is_active_edge. -/
def get_edge_neighbourhood (w : GraphWrapper) (e : ℕ × ℕ) : List (ℕ × ℕ) :=
  (neighborsOf w e).filter (fun t => is_active_edge w t)

/-- The attribute update self._graph.nodes[edge_id]['type'] = val,
after the coercion and key checks have passed: the entry keyed by the
given edge identifier gets the new value, every other entry is kept. -/
def setTypeRaw (w : GraphWrapper) (e : ℕ × ℕ) (n : ℤ) : GraphWrapper :=
  ⟨w.typ.map (fun p => if p.1 = e then (e, n) else p)⟩

/-- GraphWrapper.set_edge_type: first int(new_val) (a ValueError there
is re-raised as TypeError), then the dictionary indexing (KeyError on
an unknown edge identifier), then the attribute update.  Any value
whose coercion succeeds is stored as its coerced integer: the code has
no check that the stored value lies in the two-valued domain. -/
def set_edge_type (w : GraphWrapper) (e : ℕ × ℕ) (v : PyVal) : Except PyErr GraphWrapper :=
  match pyIntCoerce v with
  | none => .error .typeError
  | some n =>
      if e ∈ get_elements w then .ok (setTypeRaw w e n)
      else .error .keyError

/-- GraphWrapper.set_particle: a direct wrapper of set_edge_type. -/
def set_particle (w : GraphWrapper) (e : ℕ × ℕ) (v : PyVal) : Except PyErr GraphWrapper :=
  set_edge_type w e v

/-- A finite sequence of set_edge_type / set_particle calls, threaded
through the state; a call that raises leaves the state as it was (the
update is only performed after both checks pass). -/
def applyOps (w : GraphWrapper) (ops : List ((ℕ × ℕ) × PyVal)) : GraphWrapper :=
  ops.foldl (fun cur op =>
    match set_edge_type cur op.1 op.2 with
    | .ok w2 => w2
    | .error _ => cur) w

/-- Node count of the graph returned by nx.inverse_line_graph when its
input is the line graph of a complete graph of order k, the only input
the wrapper ever hands it.  Modelled from the networkx algorithm
(Roussopoulos partition into cliques), which the repository calls as a
library routine:
for k = 0 or 1 the line graph has no nodes and networkx returns the
one-node empty graph (1); for k = 2 the line graph is a single node and
networkx returns a single edge on two fresh nodes (2); for k = 3 the
line graph is the triangle, the partition algorithm takes the single
triangle as one cell plus one singleton cell per vertex covered once,
and returns the star on 4 nodes (the Whitney ambiguity: the triangle is
the line graph of both the triangle and the star); for k of at least 4
the Krausz partition into the k maximal cliques, one per original node,
is unique, every line-graph node lies in exactly two cells, and the
returned graph has exactly k nodes. -/
def inverseLineGraphOrder (k : ℕ) : ℕ :=
  if k ≤ 1 then 1 else if k = 2 then 2 else if k = 3 then 4 else k

/-- The original-graph node set recovered from the line-graph nodes:
the endpoints appearing in any line-graph node identifier. -/
def originalNodes (w : GraphWrapper) : Finset ℕ :=
  ((get_elements w).flatMap (fun p => [p.1, p.2])).toFinset

/-- GraphWrapper.get_initial_dim: len(nx.inverse_line_graph(...)) on
the held line graph, which is always the line graph of the complete
graph on the recovered original node set. -/
def get_initial_dim (w : GraphWrapper) : ℕ :=
  inverseLineGraphOrder (originalNodes w).card

/-- dict(self._graph.degree(nbunch=active_edges)).values(): the full
line-graph degree of each active element.  The nbunch argument only
selects which nodes are reported; each reported degree counts all
neighbors in the line graph, active or not. -/
def activeDegrees (w : GraphWrapper) : List ℕ :=
  (get_active_edges w).map (fun e => (neighborsOf w e).length)

/-- GraphWrapper.get_bridge_count, literally: after computing the
degree view, the code evaluates sum(degrees / 2), and degrees is a
Python dict_values collection, which supports no division by an
integer, so every call raises TypeError before summing anything. -/
def get_bridge_count (w : GraphWrapper) : Except PyErr ℚ :=
  let _ := activeDegrees w
  .error .typeError

/-- The nearest runnable reading of get_bridge_count: sum the full
line-graph degrees of the active elements and halve the total. -/
def bridgeCountIntended (w : GraphWrapper) : ℚ :=
  ((activeDegrees w).sum : ℚ) / 2

/-- Modelled from the spec: bridge_count as the sum over active edges
of the line-graph degree restricted to active edges, divided by 2 (the
formula the specification states for bridge_count, which the code does
not compute). -/
def bridgeCountSpec (w : GraphWrapper) : ℚ :=
  (((get_active_edges w).map
      (fun e => (get_edge_neighbourhood w e).length)).sum : ℚ) / 2

/-- The path graph on nodes 0, 1, 2 with edges (0,1) and (1,2). -/
def pathGraph3 : InGraph :=
  ⟨false, false, [0, 1, 2], [(0, 1), (1, 2)]⟩

/-- The wrapper the constructor builds from pathGraph3: both path edges
typed 1, the single complement pair (0,2) typed 0. -/
def pathWrapper3 : GraphWrapper :=
  ⟨[((0, 1), 1), ((1, 2), 1), ((0, 2), 0)]⟩

/-- The wrapper the constructor builds from dim = 3 and no graph: the
line graph of the complete graph on 3 nodes, every node typed 0. -/
def k3Wrapper : GraphWrapper :=
  ⟨[((0, 1), 0), ((0, 2), 0), ((1, 2), 0)]⟩

/-- k3Wrapper after the type of edge (0,1) is set to 1. -/
def k3WrapperSet : GraphWrapper :=
  ⟨[((0, 1), 1), ((0, 2), 0), ((1, 2), 0)]⟩

lemma mem_completeEdges {ns : List ℕ} {p : ℕ × ℕ} :
    p ∈ completeEdges ns ↔ p.1 ∈ ns ∧ p.2 ∈ ns ∧ p.1 < p.2 := by
  cases p with
  | mk a b =>
    simp only [completeEdges, List.mem_filter, List.mem_flatMap, List.mem_map,
      decide_eq_true_eq]
    constructor
    · rintro ⟨⟨x, hx, y, hy, heq⟩, hlt⟩
      cases heq
      exact ⟨hx, hy, hlt⟩
    · rintro ⟨ha, hb, hlt⟩
      exact ⟨⟨a, ha, b, hb, rfl⟩, hlt⟩

lemma nodup_completeEdges {ns : List ℕ} (h : ns.Nodup) :
    (completeEdges ns).Nodup := by
  apply List.Nodup.filter
  apply List.nodup_flatMap.mpr
  refine ⟨fun a _ => ?_, ?_⟩
  · exact h.map (fun b b' hb => congrArg Prod.snd hb)
  · refine h.imp ?_
    intro a₁ a₂ hne
    intro x h₁ h₂
    rcases List.mem_map.mp h₁ with ⟨b₁, _, rfl⟩
    rcases List.mem_map.mp h₂ with ⟨b₂, _, heq⟩
    exact hne (congrArg Prod.fst heq).symm

lemma map_fst_map_const (l : List (ℕ × ℕ)) (c : ℤ) :
    (l.map (fun e => (e, c))).map Prod.fst = l := by
  rw [List.map_map]
  exact (List.map_congr_left fun p _ => rfl).trans l.map_id

lemma find?_map_const {l : List (ℕ × ℕ)} {x : ℕ × ℕ} {c : ℤ} (h : x ∈ l) :
    (l.map (fun e => (e, c))).find? (fun q => decide (q.1 = x)) = some (x, c) := by
  induction l with
  | nil => cases h
  | cons a t ih =>
      by_cases hax : a = x
      · subst hax
        rw [List.map_cons, List.find?_cons_of_pos _ (by simp)]
      · rcases List.mem_cons.mp h with h1 | h2
        · exact absurd h1.symm hax
        · rw [List.map_cons, List.find?_cons_of_neg _ (by simp [hax]), ih h2]

lemma find?_map_const_of_not_mem {l : List (ℕ × ℕ)} {x : ℕ × ℕ} {c : ℤ}
    (h : x ∉ l) :
    (l.map (fun e => (e, c))).find? (fun q => decide (q.1 = x)) = none := by
  rw [List.find?_eq_none]
  rintro ⟨y, d⟩ hy
  rcases List.mem_map.mp hy with ⟨e, he, heq⟩
  cases heq
  simp only [decide_eq_true_eq]
  rintro rfl
  exact h he

lemma get_elements_setTypeRaw (w : GraphWrapper) (e : ℕ × ℕ) (n : ℤ) :
    get_elements (setTypeRaw w e n) = get_elements w := by
  unfold get_elements setTypeRaw
  rw [List.map_map]
  apply List.map_congr_left
  intro p _
  by_cases hp : p.1 = e <;> simp [hp]

lemma find?_update_self (l : List ((ℕ × ℕ) × ℤ)) (e : ℕ × ℕ) (n : ℤ)
    (he : e ∈ l.map Prod.fst) :
    (l.map (fun p => if p.1 = e then (e, n) else p)).find?
      (fun q => decide (q.1 = e)) = some (e, n) := by
  induction l with
  | nil => cases he
  | cons a t ih =>
      rw [List.map_cons] at he ⊢
      by_cases hae : a.1 = e
      · rw [if_pos hae, List.find?_cons_of_pos _ (by simp)]
      · rw [if_neg hae]
        rcases List.mem_cons.mp he with h1 | h2
        · exact absurd h1.symm hae
        · rw [List.find?_cons_of_neg _ (by simp [hae]), ih h2]

lemma find?_update_other (l : List ((ℕ × ℕ) × ℤ)) (e f : ℕ × ℕ) (n : ℤ)
    (hne : f ≠ e) :
    (l.map (fun p => if p.1 = e then (e, n) else p)).find?
      (fun q => decide (q.1 = f)) = l.find? (fun q => decide (q.1 = f)) := by
  induction l with
  | nil => rfl
  | cons a t ih =>
      rw [List.map_cons]
      by_cases hae : a.1 = e
      · rw [if_pos hae,
          List.find?_cons_of_neg _ (by
            simp only [decide_eq_true_eq]
            exact fun h => hne h.symm),
          List.find?_cons_of_neg _ (by
            simp only [decide_eq_true_eq, hae]
            exact fun h => hne h.symm),
          ih]
      · by_cases haf : a.1 = f
        · rw [if_neg hae, List.find?_cons_of_pos _ (by simp [haf]),
            List.find?_cons_of_pos _ (by simp [haf])]
        · rw [if_neg hae, List.find?_cons_of_neg _ (by simp [haf]),
            List.find?_cons_of_neg _ (by simp [haf]), ih]

lemma get_edge_type_setTypeRaw_self (w : GraphWrapper) (e : ℕ × ℕ) (n : ℤ)
    (he : e ∈ get_elements w) :
    get_edge_type (setTypeRaw w e n) e = some n := by
  unfold get_edge_type setTypeRaw
  rw [find?_update_self w.typ e n he]
  rfl

lemma get_edge_type_setTypeRaw_other (w : GraphWrapper) (e f : ℕ × ℕ) (n : ℤ)
    (hne : f ≠ e) :
    get_edge_type (setTypeRaw w e n) f = get_edge_type w f := by
  unfold get_edge_type setTypeRaw
  rw [find?_update_other w.typ e f n hne]

lemma get_elements_set_step (w : GraphWrapper) (e : ℕ × ℕ) (v : PyVal) :
    get_elements (match set_edge_type w e v with
      | .ok w2 => w2
      | .error _ => w) = get_elements w := by
  unfold set_edge_type
  cases pyIntCoerce v with
  | none => rfl
  | some n =>
      by_cases hm : e ∈ get_elements w
      · simp only [if_pos hm]
        exact get_elements_setTypeRaw w e n
      · simp only [if_neg hm]

lemma get_elements_applyOps (w : GraphWrapper) (ops : List ((ℕ × ℕ) × PyVal)) :
    get_elements (applyOps w ops) = get_elements w := by
  induction ops generalizing w with
  | nil => rfl
  | cons op t ih =>
      show get_elements (applyOps _ t) = _
      rw [ih]
      exact get_elements_set_step w op.1 op.2

lemma neighborsOf_congr {w₁ w₂ : GraphWrapper}
    (h : get_elements w₁ = get_elements w₂) (e : ℕ × ℕ) :
    neighborsOf w₁ e = neighborsOf w₂ e := by
  unfold neighborsOf
  rw [h]

lemma get_edge_type_mk_map_const (l : List (ℕ × ℕ)) (c : ℤ) (e : ℕ × ℕ)
    (he : e ∈ l) :
    get_edge_type ⟨l.map (fun p => (p, c))⟩ e = some c := by
  unfold get_edge_type
  dsimp only
  rw [find?_map_const he]
  rfl

/-- A directed input graph used as a concrete rejection example. -/
def diGraphExample : InGraph := ⟨true, false, [0, 1], [(0, 1)]⟩

/-- C1: on the path graph of 3 nodes (edges (0,1) and (1,2), both typed
active, the complement pair (0,2) inactive), the bridge-count claim
fails on the code: get_bridge_count raises TypeError on every call
(sum(degrees / 2) divides a dict_values collection by an integer), the
nearest runnable reading of the code (sum the unrestricted line-graph
degrees of the active edges, halve) yields 2, and the value 1 claimed
by the specification is produced only by the spec formula that
restricts each degree to active neighbors. -/
theorem C1_bridge_count_path3 :
    graphWrapperInit DEFAULT_DIM (some pathGraph3) = .ok pathWrapper3 ∧
    get_bridge_count pathWrapper3 = .error .typeError ∧
    bridgeCountIntended pathWrapper3 = 2 ∧
    bridgeCountSpec pathWrapper3 = 1 := by
  refine ⟨rfl, rfl, ?_, ?_⟩
  · have h : (activeDegrees pathWrapper3).sum = 4 := rfl
    unfold bridgeCountIntended
    rw [h]
    norm_num
  · have h : ((get_active_edges pathWrapper3).map
        (fun e => (get_edge_neighbourhood pathWrapper3 e).length)).sum = 2 := rfl
    unfold bridgeCountSpec
    rw [h]
    norm_num

/-- C2 counterexample: setting the type of a present edge to 2, a value
outside the two recognized types, raises nothing and changes the type
to 2, refuting both the InvalidStateError and the unchanged-type parts
of the claim. -/
theorem C2_counterexample_set_two_succeeds :
    set_edge_type k3Wrapper (0, 1) (.vint 2) =
      .ok (⟨[((0, 1), 2), ((0, 2), 0), ((1, 2), 0)]⟩ : GraphWrapper) ∧
    get_edge_type (⟨[((0, 1), 2), ((0, 2), 0), ((1, 2), 0)]⟩ : GraphWrapper)
      (0, 1) = some 2 ∧
    (2 : ℤ) ≠ 0 ∧ (2 : ℤ) ≠ 1 :=
  ⟨rfl, rfl, by decide, by decide⟩

/-- C2 (amended): for every edge identifier present in the index,
set_type / set_particle with a value whose integer coercion succeeds
raises nothing and stores the coerced integer as the new type, even
when it is outside the two recognized types; only a value whose integer
coercion fails raises, with TypeError, and no InvalidStateError exists
in the code. -/
theorem C2_set_type_coercion (w : GraphWrapper) (e : ℕ × ℕ)
    (he : e ∈ get_elements w) (v : PyVal) :
    (∀ n : ℤ, pyIntCoerce v = some n →
      set_edge_type w e v = .ok (setTypeRaw w e n) ∧
      get_edge_type (setTypeRaw w e n) e = some n) ∧
    (pyIntCoerce v = none → set_edge_type w e v = .error .typeError) := by
  constructor
  · intro n hn
    refine ⟨?_, get_edge_type_setTypeRaw_self w e n he⟩
    unfold set_edge_type
    rw [hn]
    dsimp only
    rw [if_pos he]
  · intro hn
    unfold set_edge_type
    rw [hn]

/-- C2 witness: the amended statement applied to the concrete wrapper
of the 3-node complete graph, edge (0,1), value 7. -/
theorem C2_witness_store_seven :
    ((0, 1) ∈ get_elements k3Wrapper) ∧
    ((∀ n : ℤ, pyIntCoerce (.vint 7) = some n →
        set_edge_type k3Wrapper (0, 1) (.vint 7) =
          .ok (setTypeRaw k3Wrapper (0, 1) n) ∧
        get_edge_type (setTypeRaw k3Wrapper (0, 1) n) (0, 1) = some n) ∧
      (pyIntCoerce (.vint 7) = none →
        set_edge_type k3Wrapper (0, 1) (.vint 7) = .error .typeError)) :=
  ⟨by decide, C2_set_type_coercion k3Wrapper (0, 1) (by decide) (.vint 7)⟩

/-- C3 counterexample: constructing from node count 1 does not fail at
all: it succeeds and yields the empty index (the complete graph on one
node has no edges, so its line graph has no nodes), refuting the
claimed ConfigurationError for node counts below 2. -/
theorem C3_counterexample_dim_one_succeeds :
    graphWrapperInit 1 none = .ok (⟨[]⟩ : GraphWrapper) ∧
    get_elements (⟨[]⟩ : GraphWrapper) = [] :=
  ⟨rfl, rfl⟩

/-- C3 (amended): constructing the index from a node count alone never
fails; for every node count the construction succeeds and every
line-graph node is typed Inactive (0) (for node counts below 2 the
index is empty rather than an error). -/
theorem C3_init_from_dim_all_inactive (k : ℕ) :
    ∃ w, graphWrapperInit k none = .ok w ∧
      ∀ e ∈ get_elements w, get_edge_type w e = some 0 := by
  refine ⟨_, rfl, ?_⟩
  intro e he
  have he2 : e ∈ completeEdges (List.range k) := by
    unfold get_elements at he
    dsimp only at he
    rwa [map_fst_map_const] at he
  exact get_edge_type_mk_map_const _ _ _ he2

/-- C3 witness: the amended statement at node count 4. -/
theorem C3_witness_dim_four :
    ∃ w, graphWrapperInit 4 none = .ok w ∧
      ∀ e ∈ get_elements w, get_edge_type w e = some 0 :=
  C3_init_from_dim_all_inactive 4

/-- C4: for every simple undirected source graph (nodes without
repetition, edges held as canonical pairs over those nodes, no
direction, no parallel edges), construction succeeds and the union of
the active-typed and the inactive-typed edge identifiers is exactly the
edge set of the complete graph on the node set: every canonical pair
appears exactly once among the elements, source edges are typed 1 and
complement pairs are typed 0. -/
theorem C4_complement_completeness (gr : InGraph)
    (hdir : gr.directed = false) (hmul : gr.multi = false)
    (hnodes : gr.nodes.Nodup) (hedges : gr.edges.Nodup)
    (hsub : ∀ p ∈ gr.edges, p ∈ completeEdges gr.nodes) :
    ∃ w, graphWrapperInit DEFAULT_DIM (some gr) = .ok w ∧
      (get_elements w).Nodup ∧
      (∀ p, p ∈ get_elements w ↔ p ∈ completeEdges gr.nodes) ∧
      (∀ p, (p ∈ get_active_edges w ∨ p ∈ inactiveEdges w) ↔
        p ∈ completeEdges gr.nodes) ∧
      (∀ p ∈ get_elements w,
        get_edge_type w p = some (if p ∈ gr.edges then 1 else 0)) := by
  set W : GraphWrapper := ⟨gr.edges.map (fun e => (e, (1 : ℤ))) ++
      (complementEdges gr).map (fun e => (e, (0 : ℤ)))⟩ with hW
  have hel : get_elements W = gr.edges ++ complementEdges gr := by
    rw [hW]
    unfold get_elements
    dsimp only
    rw [List.map_append, map_fst_map_const, map_fst_map_const]
  have hmem : ∀ p, p ∈ get_elements W ↔ p ∈ completeEdges gr.nodes := by
    intro p
    rw [hel, List.mem_append]
    constructor
    · rintro (h | h)
      · exact hsub p h
      · exact (List.mem_filter.mp h).1
    · intro h
      by_cases hp : p ∈ gr.edges
      · exact Or.inl hp
      · exact Or.inr (List.mem_filter.mpr ⟨h, by simp [hp]⟩)
  have hnd : (get_elements W).Nodup := by
    rw [hel]
    refine List.Nodup.append hedges ((nodup_completeEdges hnodes).filter _) ?_
    intro p hp hpc
    have h2 := (List.mem_filter.mp hpc).2
    simp only [decide_eq_true_eq] at h2
    exact h2 hp
  have htype : ∀ p ∈ get_elements W,
      get_edge_type W p = some (if p ∈ gr.edges then 1 else 0) := by
    intro p hp
    rw [hW]
    unfold get_edge_type
    dsimp only
    rw [List.find?_append]
    by_cases hpe : p ∈ gr.edges
    · rw [find?_map_const hpe]
      simp [hpe]
    · have hpc : p ∈ complementEdges gr :=
        List.mem_filter.mpr ⟨(hmem p).mp hp, by simp [hpe]⟩
      rw [find?_map_const_of_not_mem hpe, find?_map_const hpc]
      simp [hpe]
  have hun : ∀ p, (p ∈ get_active_edges W ∨ p ∈ inactiveEdges W) ↔
      p ∈ completeEdges gr.nodes := by
    intro p
    constructor
    · rintro (h | h)
      · exact (hmem p).mp (List.mem_filter.mp h).1
      · exact (hmem p).mp (List.mem_filter.mp h).1
    · intro h
      have hp : p ∈ get_elements W := (hmem p).mpr h
      have ht := htype p hp
      by_cases hpe : p ∈ gr.edges
      · exact Or.inl (List.mem_filter.mpr
          ⟨hp, by simp [is_active_edge, ht, hpe]⟩)
      · exact Or.inr (List.mem_filter.mpr ⟨hp, by simp [ht, hpe]⟩)
  refine ⟨W, ?_, hnd, hmem, hun, htype⟩
  simp [graphWrapperInit, hdir, hmul, hW]

/-- C4 witness: the completeness statement at the concrete path graph
on 3 nodes. -/
theorem C4_witness_path3 :
    (pathGraph3.directed = false ∧ pathGraph3.multi = false ∧
      pathGraph3.nodes.Nodup ∧ pathGraph3.edges.Nodup ∧
      ∀ p ∈ pathGraph3.edges, p ∈ completeEdges pathGraph3.nodes) ∧
    ∃ w, graphWrapperInit DEFAULT_DIM (some pathGraph3) = .ok w ∧
      (get_elements w).Nodup ∧
      (∀ p, p ∈ get_elements w ↔ p ∈ completeEdges pathGraph3.nodes) ∧
      (∀ p, (p ∈ get_active_edges w ∨ p ∈ inactiveEdges w) ↔
        p ∈ completeEdges pathGraph3.nodes) ∧
      (∀ p ∈ get_elements w,
        get_edge_type w p = some (if p ∈ pathGraph3.edges then 1 else 0)) :=
  ⟨⟨rfl, rfl, by decide, by decide, by decide⟩,
    C4_complement_completeness pathGraph3 rfl rfl (by decide) (by decide)
      (by decide)⟩

/-- C5: for every state of the index and every edge identifier, the
active neighbourhood returned by get_edge_neighbourhood is exactly the
subset of the line-graph neighbors whose current type is Active (1). -/
theorem C5_active_neighbourhood_filter (w : GraphWrapper) (e : ℕ × ℕ)
    (he : e ∈ get_elements w) (n : ℕ × ℕ) :
    n ∈ get_edge_neighbourhood w e ↔
      n ∈ neighborsOf w e ∧ get_edge_type w n = some 1 := by
  unfold get_edge_neighbourhood is_active_edge
  rw [List.mem_filter]
  simp

/-- C5 witness: the filter property at the path-graph wrapper, edge
(0,1), candidate neighbor (1,2). -/
theorem C5_witness_path3 :
    ((0, 1) ∈ get_elements pathWrapper3) ∧
    ((1, 2) ∈ get_edge_neighbourhood pathWrapper3 (0, 1) ↔
      (1, 2) ∈ neighborsOf pathWrapper3 (0, 1) ∧
      get_edge_type pathWrapper3 (1, 2) = some 1) :=
  ⟨by decide, C5_active_neighbourhood_filter pathWrapper3 (0, 1) (by decide) (1, 2)⟩

/-- C6: the line-graph node set and the adjacency set of every edge
identifier are identical before and after any finite sequence of
set_type / set_particle calls: mutation changes only node types. -/
theorem C6_adjacency_immutable (w : GraphWrapper)
    (ops : List ((ℕ × ℕ) × PyVal)) (e : ℕ × ℕ) :
    neighborsOf (applyOps w ops) e = neighborsOf w e ∧
    get_elements (applyOps w ops) = get_elements w :=
  ⟨neighborsOf_congr (get_elements_applyOps w ops) e, get_elements_applyOps w ops⟩

/-- C7: flipping one present edge identifier from Inactive (0) to
Active (1) through set_particle changes that identifier's type to 1 and
leaves every other identifier's type and every adjacency set unchanged. -/
theorem C7_mutation_isolation (w w2 : GraphWrapper) (e : ℕ × ℕ)
    (hmem : e ∈ get_elements w)
    (hprev : get_edge_type w e = some 0)
    (hset : set_particle w e (.vint 1) = .ok w2) :
    get_edge_type w2 e = some 1 ∧
    (∀ f, f ≠ e → get_edge_type w2 f = get_edge_type w f) ∧
    (∀ g, neighborsOf w2 g = neighborsOf w g) := by
  have hset2 : (if e ∈ get_elements w
      then (Except.ok (setTypeRaw w e 1) : Except PyErr GraphWrapper)
      else .error .keyError) = .ok w2 := hset
  rw [if_pos hmem] at hset2
  have hw2 : setTypeRaw w e 1 = w2 := Except.ok.inj hset2
  subst hw2
  exact ⟨get_edge_type_setTypeRaw_self w e 1 hmem,
    fun f hf => get_edge_type_setTypeRaw_other w e f 1 hf,
    fun g => neighborsOf_congr (get_elements_setTypeRaw w e 1) g⟩

/-- C7 witness: the isolation property at the 3-node complete-graph
wrapper, flipping edge (0,1) from 0 to 1. -/
theorem C7_witness_k3 :
    ((0, 1) ∈ get_elements k3Wrapper) ∧
    get_edge_type k3Wrapper (0, 1) = some 0 ∧
    set_particle k3Wrapper (0, 1) (.vint 1) = .ok k3WrapperSet ∧
    (get_edge_type k3WrapperSet (0, 1) = some 1 ∧
      (∀ f, f ≠ (0, 1) → get_edge_type k3WrapperSet f = get_edge_type k3Wrapper f) ∧
      (∀ g, neighborsOf k3WrapperSet g = neighborsOf k3Wrapper g)) :=
  ⟨by decide, rfl, rfl,
    C7_mutation_isolation k3Wrapper k3WrapperSet (0, 1) (by decide) rfl rfl⟩

/-- C9: constructing the index from a source graph that is directed or
allows parallel edges always fails (the isinstance guard raises
TypeError) and never produces an index. -/
theorem C9_reject_directed_or_multi (gr : InGraph)
    (h : gr.directed = true ∨ gr.multi = true) :
    graphWrapperInit DEFAULT_DIM (some gr) = .error .typeError := by
  rcases h with h | h <;> simp [graphWrapperInit, h]

/-- C9 witness: rejection of a concrete directed graph. -/
theorem C9_witness_digraph :
    (diGraphExample.directed = true ∨ diGraphExample.multi = true) ∧
    graphWrapperInit DEFAULT_DIM (some diGraphExample) = .error .typeError :=
  ⟨Or.inl rfl, C9_reject_directed_or_multi diGraphExample (Or.inl rfl)⟩

/-- C10: for every present edge identifier and every value whose
integer coercion succeeds, set_particle stores the coerced integer and
get_particle returns it, integers outside the two-valued domain
included. -/
theorem C10_set_get_round_trip (w : GraphWrapper) (e : ℕ × ℕ) (v : PyVal)
    (n : ℤ) (he : e ∈ get_elements w) (hc : pyIntCoerce v = some n) :
    ∃ w2, set_particle w e v = .ok w2 ∧ get_particle w2 e = some n := by
  refine ⟨setTypeRaw w e n, ?_, get_edge_type_setTypeRaw_self w e n he⟩
  unfold set_particle set_edge_type
  rw [hc]
  dsimp only
  rw [if_pos he]

/-- C10 witness: the round trip at the 3-node complete-graph wrapper,
edge (0,2), storing the out-of-domain integer 5. -/
theorem C10_witness_store_five :
    ((0, 2) ∈ get_elements k3Wrapper) ∧ pyIntCoerce (.vint 5) = some 5 ∧
    ∃ w2, set_particle k3Wrapper (0, 2) (.vint 5) = .ok w2 ∧
      get_particle w2 (0, 2) = some 5 :=
  ⟨by decide, rfl,
    C10_set_get_round_trip k3Wrapper (0, 2) (.vint 5) 5 (by decide) rfl⟩

lemma originalNodes_complete (k : ℕ) (hk : 2 ≤ k) :
    originalNodes ⟨(completeEdges (List.range k)).map (fun e => (e, (0 : ℤ)))⟩ =
      Finset.range k := by
  have hel : get_elements
      ⟨(completeEdges (List.range k)).map (fun e => (e, (0 : ℤ)))⟩ =
      completeEdges (List.range k) := by
    unfold get_elements
    dsimp only
    rw [map_fst_map_const]
  ext a
  simp only [originalNodes, List.mem_toFinset, List.mem_flatMap, hel,
    Finset.mem_range, List.mem_cons, List.mem_singleton, List.not_mem_nil,
    or_false]
  constructor
  · rintro ⟨p, hp, hap⟩
    rcases mem_completeEdges.mp hp with ⟨h1, h2, _⟩
    rw [List.mem_range] at h1 h2
    rcases hap with h | h <;> omega
  · intro ha
    by_cases h : a + 1 < k
    · refine ⟨(a, a + 1), mem_completeEdges.mpr ?_, Or.inl rfl⟩
      simp only [List.mem_range]
      omega
    · refine ⟨(0, a), mem_completeEdges.mpr ?_, Or.inr rfl⟩
      simp only [List.mem_range]
      omega

/-- C8 counterexample: built from node count 3, the index holds the
line graph of the triangle, which is also the line graph of the star on
4 nodes; the inverse-line-graph routine returns the star, so
get_initial_dim returns 4, not the claimed 3. -/
theorem C8_counterexample_dim_three :
    graphWrapperInit 3 none = .ok k3Wrapper ∧
    get_initial_dim k3Wrapper = 4 ∧ (4 : ℕ) ≠ 3 :=
  ⟨rfl, by decide, by decide⟩

/-- C8 (amended): for node count 2 and for every node count of at
least 4, building the default complete-graph index and calling
get_initial_dim returns the node count; at node count 3 the inverse
line graph is ambiguous and the routine returns 4 instead. -/
theorem C8_round_trip_dimension (k : ℕ) (hk : k = 2 ∨ 4 ≤ k) :
    ∃ w, graphWrapperInit k none = .ok w ∧ get_initial_dim w = k := by
  refine ⟨_, rfl, ?_⟩
  have hk2 : 2 ≤ k := by rcases hk with h | h <;> omega
  unfold get_initial_dim
  rw [originalNodes_complete k hk2, Finset.card_range]
  rcases hk with h | h
  · subst h
    decide
  · unfold inverseLineGraphOrder
    rw [if_neg (by omega), if_neg (by omega), if_neg (by omega)]

/-- C8 witness: the amended statement at node count 5. -/
theorem C8_witness_dim_five :
    ((5 : ℕ) = 2 ∨ 4 ≤ (5 : ℕ)) ∧
    ∃ w, graphWrapperInit 5 none = .ok w ∧ get_initial_dim w = 5 :=
  ⟨Or.inr (by omega), C8_round_trip_dimension 5 (Or.inr (by omega))⟩

end AbcShadow
